import Mathlib

/-!
Shallow embedding of the Rattlescan forensic metadata CLI
(`rattlescan/cli.py`) and proofs about its specified behaviour.

The embedding models the pure data flow of each component.  External
libraries (hashlib, python-magic, Pillow, PyPDF2, mutagen) and the
operating system are collaborators: their outcomes are inputs to the
embedded functions (success data, failure, or capability-missing), and
filesystem mutations are modelled as explicit effect values emitted in
program order.
-/

namespace Rattlescan

/-! ## Path model

Mirrors the pieces of `pathlib.Path` and `str.lower` that `cli.py`
uses: `Path(fp).suffix`, the rendering of `Path(fp).with_suffix` at
the empty suffix, and `.lower()`.  `Path.suffix` returns `name[i:]`
for the last dot index `i` of the final path component when
`0 < i < len(name) - 1`, and `""` otherwise. -/

/-- Final path component of `fp` (the part after the last slash). -/
def pathName (fp : String) : String :=
  ⟨(fp.data.reverse.takeWhile (fun c => c != '/')).reverse⟩

/-- Extension of the final component including the leading dot, the
way `pathlib.Path.suffix` computes it; `""` when there is no
extension. -/
def pathSuffix (fp : String) : String :=
  let name := (pathName fp).data
  let t := name.reverse.takeWhile (fun c => c != '.')
  if t.length + 1 < name.length ∧ 0 < t.length then ⟨'.' :: t.reverse⟩ else ""

/-- The path without its extension: the string rendering of
`Path(fp).with_suffix` applied to the empty suffix. -/
def withSuffixEmpty (fp : String) : String :=
  ⟨fp.data.take (fp.data.length - (pathSuffix fp).length)⟩

/-- Character-wise lowercasing, `str.lower` for the ASCII paths the
tool manipulates. -/
def strLower (s : String) : String :=
  ⟨s.data.map Char.toLower⟩

/-! ## Digest engine (`calculate_file_hashes`)

The three hashlib objects are external collaborators; their
compression functions are modelled by a stand-in fold whose only
relevant property is the digest width.  `hexdigest` is modelled
faithfully: a lowercase hexadecimal rendering of the digest state at
exactly twice the digest byte size (32, 40, 64 characters). -/

/-- The sixteen lowercase hexadecimal digit characters. -/
def hexDigits : List Char :=
  "0123456789abcdef".data

/-- Lowercase hexadecimal digit for a value below 16. -/
def hexChar (n : Nat) : Char :=
  if n < 10 then Char.ofNat (48 + n) else Char.ofNat (87 + n)

/-- Fixed-width big-endian hexadecimal rendering of `v`. -/
def toHexAux : Nat → Nat → List Char
  | 0, _ => []
  | w + 1, v => toHexAux w (v / 16) ++ [hexChar (v % 16)]

/-- Rendering of `hexdigest()`: the digest state of an algorithm
whose hex output has `width` characters. -/
def hexdigest (width state : Nat) : String :=
  ⟨toHexAux width state⟩

/-- Stand-in for one byte of hashlib compression into a state space of
`16 ^ width` values; only the output width matters to the claims. -/
def digestUpdate (width : Nat) (state : Nat) (b : Nat) : Nat :=
  (state * 257 + b + 1) % 16 ^ width

/-- Embedding of `calculate_file_hashes`: the read loop feeds every byte through
the three accumulators; a read failure at any point abandons the
accumulated digests and produces the single error entry.  The input is
the outcome of the chunked read loop: all bytes, or the exception
text. -/
def calculate_file_hashes (readRes : Except String (List Nat)) : List (String × String) :=
  match readRes with
  | .error e => [("Error", "Could not calculate hashes: " ++ e)]
  | .ok bytes =>
      let md5 := bytes.foldl (digestUpdate 32) 0
      let sha1 := bytes.foldl (digestUpdate 40) 0
      let sha256 := bytes.foldl (digestUpdate 64) 0
      [("MD5", hexdigest 32 md5), ("SHA-1", hexdigest 40 sha1),
       ("SHA-256", hexdigest 64 sha256)]

/-- A string of exactly `w` lowercase hexadecimal characters. -/
def isLowerHex (w : Nat) (s : String) : Prop :=
  s.length = w ∧ ∀ c ∈ s.data, c ∈ hexDigits

/-! ## Secure wipe (`secure_wipe_file`)

The pass loop is modelled as the ordered trace of device operations it
performs; `ok` is whether the surrounding `try` body runs to
completion (`getsize`, `open`, the writes and the final `remove` all
succeed). -/

/-- One observable operation of the wipe loop on the open file. -/
inductive WipeEvent where
  | seek0 : WipeEvent
  | writeRandom (size : Nat) : WipeEvent
  | writeFill (byte : Nat) (size : Nat) : WipeEvent
  | flush : WipeEvent
  | fsync : WipeEvent
  | remove : WipeEvent
deriving DecidableEq, Repr

/-- Operations of pass `i`: seek to offset 0, write the pass pattern
(random unless `i = 1`, which writes the uniform 0xFF fill), then
flush and fsync before the next pass starts. -/
def wipePassEvents (sz : Nat) (i : Nat) : List WipeEvent :=
  [.seek0, if i ≠ 1 then .writeRandom sz else .writeFill 0xFF sz, .flush, .fsync]

/-- Embedding of `secure_wipe_file`: on success, the full pass trace followed by
the unlink; on any failure the function reports the error message
instead. -/
def secure_wipe_file (ok : Bool) (sz : Nat) (passes : Nat := 3) :
    List WipeEvent × Bool × String :=
  if ok then
    ((List.range passes).flatMap (wipePassEvents sz) ++ [.remove], true,
      "File securely wiped with " ++ toString passes ++ " passes")
  else ([], false, "Error during secure wipe")

/-! ## Type classifier (`get_file_type_info`) -/

/-- Outcome of the two `magic.Magic(...).from_file` calls. -/
inductive MagicResult where
  | importError : MagicResult
  | failure (e : String) : MagicResult
  | ok (mime desc : String) : MagicResult

/-- The fixed expectation table mapping sniffed MIME type to the set
of extensions it should carry. -/
def mimeExpected : List (String × List String) :=
  [("image/jpeg", [".jpg", ".jpeg"]), ("image/png", [".png"]),
   ("application/pdf", [".pdf"]), ("text/plain", [".txt"]),
   ("application/zip", [".zip"])]

/-- Embedding of `get_file_type_info`: records MIME type and description, then
flags an anomaly when the sniffed type is in the table and the
lowercased extension is missing or not among the expected ones. -/
def get_file_type_info (res : MagicResult) (fp : String) : List (String × String) :=
  match res with
  | .importError =>
      [("Note", "python-magic not installed. Install with: pip install python-magic")]
  | .failure e => [("Error", e)]
  | .ok mime desc =>
      let base := [("MIME Type", mime), ("File Type Description", desc)]
      let ext := strLower (pathSuffix fp)
      match mimeExpected.lookup mime with
      | none => base
      | some exts =>
          if ext ∈ exts then base
          else base ++
            [((if ext = "" then "⚠ No Extension" else "⚠ Extension Mismatch"),
              "File is " ++ mime ++ " but has " ++
                (if ext = "" then "no" else ext) ++ " extension")]

/-! ## Format metadata extractors

Each extractor receives the outcome of its external decoding library
as input and produces its report; the Python `try`/`except` structure
is mirrored by the input variants.  Report values are the rendered
display strings. -/

/-- Outcome of `Image.open` and the EXIF walk inside the `try` block
of `get_image_exif_metadata`.  `opened ... exif` carries the rendered
tag pairs, or `none` when `_getexif` is absent or returns `None`. -/
inductive ImageOpen where
  | ioError : ImageOpen
  | failure (e : String) : ImageOpen
  | opened (format mode : String) (w h : Nat)
      (exif : Option (List (String × String))) : ImageOpen

/-- Embedding of `get_image_exif_metadata`: capability note when Pillow is missing,
`None` (no report) on `IOError`, a fresh single error entry on any
other exception, otherwise the format header plus either the rendered
tags or the explicit no-EXIF status. -/
def get_image_exif_metadata (pil : Bool) (input : ImageOpen) :
    Option (List (String × String)) :=
  if pil = false then
    some [("Note", "Pillow library not installed. Cannot extract EXIF metadata.")]
  else
    match input with
    | .ioError => none
    | .failure e => some [("Error", "EXIF extraction error: " ++ e)]
    | .opened fmt mode w h exif =>
        let base := [("Image Format", fmt), ("Image Mode", mode),
          ("Image Size", toString w ++ " x " ++ toString h ++ " pixels")]
        match exif with
        | none => some (base ++ [("EXIF Status", "No EXIF data found")])
        | some tags => some (base ++ tags)

/-- Strip leading slashes from a key name, `k.lstrip` at the slash
character. -/
def lstripSlash (s : String) : String :=
  ⟨s.data.dropWhile (fun c => c == '/')⟩

/-- Outcome of opening and reading the PDF.  `parsed pages enc meta`
means `PdfReader`, `len(pdf.pages)` and `is_encrypted` succeeded;
`meta` is the document-info pairs (empty when absent), or the
exception text when accessing them raises. -/
inductive PdfParse where
  | failure (e : String) : PdfParse
  | parsed (pages : Nat) (encrypted : Bool)
      (meta : Except String (List (String × String))) : PdfParse

/-- Embedding of `get_pdf_metadata`: capability note when PyPDF2 is missing; an
exception before any field was stored yields the single error entry;
an exception while reading the document info appends the error entry
to the fields already stored in `m`. -/
def get_pdf_metadata (pypdf2 : Bool) (input : PdfParse) : List (String × String) :=
  if pypdf2 = false then
    [("Note", "PyPDF2 not installed. Install with: pip install PyPDF2")]
  else
    match input with
    | .failure e => [("Error", "PDF extraction error: " ++ e)]
    | .parsed pages enc meta =>
        let m := [("Number of Pages", toString pages), ("Encrypted", toString enc)]
        match meta with
        | .error e => m ++ [("Error", "PDF extraction error: " ++ e)]
        | .ok pairs => m ++ pairs.map (fun kv => (lstripSlash kv.1, kv.2))

/-- Outcome of `mutagen.File` and the tag walk.  `opened info tags`
carries the rendered stream-info fields and either the flattened tag
pairs or the exception text raised while reading them. -/
inductive AudioOpen where
  | failure (e : String) : AudioOpen
  | unrecognized : AudioOpen
  | opened (info : List (String × String))
      (tags : Except String (List (String × String))) : AudioOpen

/-- Embedding of `get_audio_video_metadata`: capability note when mutagen is
missing; unrecognized files report that fact; an exception after the
info fields were stored appends the error entry to them. -/
def get_audio_video_metadata (mutagen : Bool) (input : AudioOpen) :
    List (String × String) :=
  if mutagen = false then
    [("Note", "mutagen not installed. Install with: pip install mutagen")]
  else
    match input with
    | .failure e => [("Error", "Audio/video extraction error: " ++ e)]
    | .unrecognized => [("Note", "Not a recognized audio/video file")]
    | .opened info tags =>
        match tags with
        | .error e => info ++ [("Error", "Audio/video extraction error: " ++ e)]
        | .ok pairs => info ++ pairs

/-! ## Entropy analyzer (`analyze_file_entropy`)

The byte histogram and the Shannon entropy formula are translated
directly; `math.log2` is modelled by `Real.logb 2`.  The formatted
display strings of the numeric branch are kept at the level of the
branch structure: the result carries the entropy value and the
classification string chosen by the fixed thresholds. -/

/-- One step of the histogram loop: `freq[b] += 1`. -/
def updateAt (l : List Nat) (b : Nat) : List Nat :=
  l.set b (l.getD b 0 + 1)

/-- The 256-bucket byte frequency histogram. -/
def freq (data : List Nat) : List Nat :=
  data.foldl updateAt (List.replicate 256 0)

/-- Shannon entropy in bits per byte over the nonzero buckets:
`-sum((c/n) * log2(c/n) for c in freq if c > 0)`. -/
noncomputable def entropyOf (data : List Nat) : ℝ :=
  -(((freq data).filter (fun c => decide (0 < c))).map
      (fun c => ((c : ℝ) / (data.length : ℝ)) *
        Real.logb 2 ((c : ℝ) / (data.length : ℝ)))).sum

/-- The three-way classification attached to the numeric result. -/
noncomputable def classify (ent : ℝ) : String :=
  if ent > 7.5 then "High entropy - possibly encrypted or compressed"
  else if ent < 4.0 then "Low entropy - likely plain text or repetitive data"
  else "Medium entropy - typical binary data"

/-- The three return shapes of `analyze_file_entropy`. -/
inductive EntropyOutcome where
  | error (msg : String) : EntropyOutcome
  | empty : EntropyOutcome
  | result (entropy : ℝ) (analysis : String) : EntropyOutcome

/-- Embedding of `analyze_file_entropy` over the outcome of reading the first
1 MiB sample: read failure yields the error report, an empty sample
yields the sentinel report, and otherwise the numeric entropy with its
classification. -/
noncomputable def analyze_file_entropy (readRes : Except String (List Nat)) :
    EntropyOutcome :=
  match readRes with
  | .error e => .error ("Entropy calculation error: " ++ e)
  | .ok data =>
      if data.length = 0 then .empty
      else .result (entropyOf data) (classify (entropyOf data))

/-! ## Cleaning and wipe engine (`perform_cleaning` and the three
per-format cleaners)

Filesystem mutations are modelled as explicit effect values in
program order.  `CleanEnv` carries the capability flags and whether
each external library operation succeeds; `incompleteWrite` records a
library write that was started but aborted by an exception, so the
target may hold partial output. -/

/-- A filesystem mutation performed by the cleaning engine. -/
inductive FsEffect where
  | write (path : String) : FsEffect
  | incompleteWrite (path : String) : FsEffect
  | copy (src dst : String) : FsEffect
  | stripTagsInPlace (path : String) : FsEffect
  | replace (src dst : String) : FsEffect
  | wipeEvent (path : String) (ev : WipeEvent) : FsEffect
deriving DecidableEq, Repr

/-- Whether an effect mutates the file at `fp`.  Reading a copy
source does not; `os.replace` mutates both the source (unlinked) and
the destination (replaced). -/
def touches : FsEffect → String → Bool
  | .write p, fp => p == fp
  | .incompleteWrite p, fp => p == fp
  | .copy _ dst, fp => dst == fp
  | .stripTagsInPlace p, fp => p == fp
  | .replace src dst, fp => src == fp || dst == fp
  | .wipeEvent p _, fp => p == fp

/-- Capability flags and external-operation outcomes for one
invocation of the cleaning engine. -/
structure CleanEnv where
  pil : Bool
  pypdf2 : Bool
  mutagen : Bool
  imageOk : Bool
  pdfOk : Bool
  audioOk : Bool
  audioHasTags : Bool
  wipeOk : Bool
  fileSize : Nat
deriving DecidableEq, Repr

/-- Embedding of `clean_image_metadata`: re-encode the pixel data to `op or fp`. -/
def clean_image_metadata (env : CleanEnv) (fp : String) (op : Option String) :
    List FsEffect × Bool × String :=
  if env.pil = false then ([], false, "Pillow library not available")
  else
    let target := op.getD fp
    if env.imageOk then ([.write target], true, "Metadata cleaned successfully")
    else ([.incompleteWrite target], false, "Error cleaning image metadata")

/-- Embedding of `clean_pdf_metadata`: rebuild the pages into
`op or fp + ".cleaned.pdf"`. -/
def clean_pdf_metadata (env : CleanEnv) (fp : String) (op : Option String) :
    List FsEffect × Bool × String :=
  if env.pypdf2 = false then ([], false, "PyPDF2 library not available")
  else
    let target := op.getD (fp ++ ".cleaned.pdf")
    if env.pdfOk then ([.write target], true, "Cleaned PDF saved to: " ++ target)
    else ([.incompleteWrite target], false, "Error cleaning PDF metadata")

/-- Embedding of `clean_audio_metadata`: duplicate the file to
`op or fp + ".cleaned" + Path(fp).suffix`, then delete the tags of
the duplicate when any exist. -/
def clean_audio_metadata (env : CleanEnv) (fp : String) (op : Option String) :
    List FsEffect × Bool × String :=
  if env.mutagen = false then ([], false, "mutagen library not available")
  else
    let target := op.getD (fp ++ ".cleaned" ++ pathSuffix fp)
    if env.audioOk then
      if env.audioHasTags then
        ([.copy fp target, .stripTagsInPlace target], true,
          "Cleaned audio saved to: " ++ target)
      else ([.copy fp target], true, "No metadata tags found to remove")
    else ([.incompleteWrite target], false, "Error cleaning audio metadata")

/-- Extensions the cleaning dispatch routes to the image cleaner;
also the set whose files `main` routes to the EXIF extractor. -/
def imageCleanExts : List String :=
  [".jpg", ".jpeg", ".png", ".tiff", ".bmp", ".gif"]

/-- Extensions the cleaning dispatch routes to the audio cleaner. -/
def audioCleanExts : List String :=
  [".mp3", ".flac", ".ogg", ".m4a", ".wav"]

/-- Extensions `main` routes to the audio/video metadata extractor. -/
def extractAudioVideoExts : List String :=
  [".mp3", ".mp4", ".flac", ".ogg", ".wav", ".m4a", ".avi", ".mkv"]

/-- The four action codes produced by the selection menu. -/
inductive CleaningAction where
  | skip : CleaningAction
  | clean_copy : CleaningAction
  | clean_overwrite : CleaningAction
  | secure_wipe : CleaningAction
deriving DecidableEq, Repr

/-- Outcome reported by `perform_cleaning`. -/
inductive CleanOutcome where
  | skipped : CleanOutcome
  | notSupported (ext : String) : CleanOutcome
  | done (success : Bool) (message : String) : CleanOutcome
  | wiped (success : Bool) (message : String) : CleanOutcome
deriving DecidableEq, Repr

/-- Derived output path used by the clean-copy branches for image and
audio files: the path without its extension, then ".cleaned", then
the lowercased suffix. -/
def cleanedCopyPath (fp : String) : String :=
  withSuffixEmpty fp ++ ".cleaned" ++ strLower (pathSuffix fp)

/-- Embedding of `perform_cleaning`: dispatch on the action and the lowercased
extension, mirroring the branch structure of the source, and collect
the filesystem effects in program order. -/
def perform_cleaning (env : CleanEnv) (fp : String) (action : CleaningAction) :
    List FsEffect × CleanOutcome :=
  match action with
  | .skip => ([], .skipped)
  | .secure_wipe =>
      let r := secure_wipe_file env.wipeOk env.fileSize 3
      (r.1.map (FsEffect.wipeEvent fp), .wiped r.2.1 r.2.2)
  | _ =>
      let ext := strLower (pathSuffix fp)
      if ext ∈ imageCleanExts then
        let op := if action = .clean_copy then some (cleanedCopyPath fp) else none
        let r := clean_image_metadata env fp op
        (r.1, .done r.2.1 r.2.2)
      else if ext = ".pdf" then
        if action = .clean_overwrite then
          let tp := fp ++ ".temp.pdf"
          let r := clean_pdf_metadata env fp (some tp)
          if r.2.1 then
            (r.1 ++ [.replace tp fp], .done true "PDF metadata cleaned (original overwritten)")
          else (r.1, .done false r.2.2)
        else
          let r := clean_pdf_metadata env fp none
          (r.1, .done r.2.1 r.2.2)
      else if ext ∈ audioCleanExts then
        let op := if action = .clean_copy then some (cleanedCopyPath fp) else none
        let r := clean_audio_metadata env fp op
        (r.1, .done r.2.1 r.2.2)
      else ([], .notSupported ext)

/-- An environment in which every capability is present and every
external operation succeeds. -/
def envAll : CleanEnv :=
  { pil := true, pypdf2 := true, mutagen := true, imageOk := true,
    pdfOk := true, audioOk := true, audioHasTags := true,
    wipeOk := true, fileSize := 4096 }

/-! ## Supporting lemmas -/

/-- The rendering `toHexAux` always produces exactly `w` characters. -/
lemma toHexAux_length (w : Nat) : ∀ v, (toHexAux w v).length = w := by
  induction w with
  | zero => intro v; rfl
  | succ k ih => intro v; simp [toHexAux, ih]

/-- The digit `hexChar n` for a value below 16 is a lowercase hexadecimal digit. -/
lemma hexChar_mem (n : Nat) (h : n < 16) : hexChar n ∈ hexDigits := by
  interval_cases n <;> decide

/-- Every character of a `toHexAux` rendering is a lowercase
hexadecimal digit. -/
lemma toHexAux_mem (w : Nat) : ∀ v c, c ∈ toHexAux w v → c ∈ hexDigits := by
  induction w with
  | zero => intro v c h; simp [toHexAux] at h
  | succ k ih =>
      intro v c h
      simp only [toHexAux, List.mem_append, List.mem_singleton] at h
      rcases h with h | h
      · exact ih _ _ h
      · exact h ▸ hexChar_mem _ (Nat.mod_lt _ (by norm_num))

/-- Every `hexdigest width v` is a `width`-character lowercase hex string. -/
lemma hexdigest_isLowerHex (w v : Nat) : isLowerHex w (hexdigest w v) :=
  ⟨toHexAux_length w v, fun c hc => toHexAux_mem w v c hc⟩

/-! ## Claim theorems -/

/-- C2: `secure_wipe_file` with pass count 3 on a file of size `sz`
performs, in order, pass 0 writing `sz` random bytes, pass 1 writing
`sz` bytes of the uniform value 0xFF, and pass 2 writing `sz` random
bytes, each pass flushed and fsynced to storage before the next one
starts, and unlinks the file after the final pass, reporting
success. -/
theorem secure_wipe_three_pass_trace (sz : Nat) :
    secure_wipe_file true sz 3 =
      ([.seek0, .writeRandom sz, .flush, .fsync,
        .seek0, .writeFill 0xFF sz, .flush, .fsync,
        .seek0, .writeRandom sz, .flush, .fsync, .remove], true,
       "File securely wiped with 3 passes") := rfl

/-- C3: the digest computation returns either exactly the three
entries MD5, SHA-1 and SHA-256 — lowercase hexadecimal strings of
lengths 32, 40 and 64 — or a single error entry, never a mixture and
never a partial subset. -/
theorem hashes_all_or_error (readRes : Except String (List Nat)) :
    (∃ e, calculate_file_hashes readRes = [("Error", e)]) ∨
    (∃ a b c, calculate_file_hashes readRes =
        [("MD5", a), ("SHA-1", b), ("SHA-256", c)] ∧
      isLowerHex 32 a ∧ isLowerHex 40 b ∧ isLowerHex 64 c) := by
  cases readRes with
  | error e => exact Or.inl ⟨"Could not calculate hashes: " ++ e, rfl⟩
  | ok bytes =>
      exact Or.inr ⟨_, _, _, rfl, hexdigest_isLowerHex _ _,
        hexdigest_isLowerHex _ _, hexdigest_isLowerHex _ _⟩

/-- Reading a set element back out of the histogram list. -/
lemma getD_set_self : ∀ (l : List Nat) (i a : Nat), i < l.length →
    (l.set i a).getD i 0 = a
  | _ :: _, 0, _, _ => rfl
  | _ :: xs, i + 1, a, h => getD_set_self xs i a (Nat.lt_of_succ_lt_succ h)

/-- Overwriting a zero bucket with zero changes nothing. -/
lemma set_zero_replicate : ∀ (m i : Nat),
    (List.replicate m (0 : Nat)).set i 0 = List.replicate m 0 := by
  intro m
  induction m with
  | zero => intro i; rfl
  | succ k ih =>
      intro i
      cases i with
      | zero => simp [List.replicate_succ]
      | succ j => simp [List.replicate_succ, ih j]

/-- Folding the increment over `n` copies of byte `b` adds `n` to
bucket `b`. -/
lemma foldl_updateAt_replicate (b : Nat) (hb : b < 256) :
    ∀ (n k : Nat),
      (List.replicate n b).foldl updateAt ((List.replicate 256 0).set b k) =
        (List.replicate 256 0).set b (k + n) := by
  intro n
  induction n with
  | zero => intro k; rfl
  | succ m ih =>
      intro k
      rw [show List.replicate (m + 1) b = b :: List.replicate m b from rfl,
        List.foldl_cons]
      have hlen : b < (List.replicate 256 (0 : Nat)).length := by
        rw [List.length_replicate]; exact hb
      have h1 : updateAt ((List.replicate 256 0).set b k) b =
          (List.replicate 256 0).set b (k + 1) := by
        unfold updateAt
        rw [getD_set_self _ _ _ hlen, List.set_set]
      rw [h1, ih (k + 1)]
      congr 1
      omega

/-- The histogram of `n` copies of byte `b` is `n` in bucket `b` and
zero elsewhere. -/
lemma freq_replicate (b : Nat) (hb : b < 256) (n : Nat) :
    freq (List.replicate n b) = (List.replicate 256 0).set b n := by
  unfold freq
  have h0 := foldl_updateAt_replicate b hb n 0
  rw [set_zero_replicate 256 b, Nat.zero_add] at h0
  exact h0

/-- All-zero buckets contribute no entropy terms. -/
lemma filter_pos_replicate_zero : ∀ m,
    (List.replicate m (0 : Nat)).filter (fun c => decide (0 < c)) = [] := by
  intro m
  induction m with
  | zero => rfl
  | succ k ih => rw [List.replicate_succ, List.filter_cons]; simp [ih]

/-- A histogram with a single nonzero bucket filters to that single
count. -/
lemma filter_pos_set (n : Nat) (hn : 0 < n) :
    ∀ (m b : Nat), b < m →
      ((List.replicate m (0 : Nat)).set b n).filter (fun c => decide (0 < c)) =
        [n] := by
  intro m
  induction m with
  | zero => exact fun i hi => absurd hi (Nat.not_lt_zero i)
  | succ k ih =>
      intro b hb
      cases b with
      | zero =>
          rw [List.replicate_succ]
          show ((n :: List.replicate k 0 : List Nat)).filter _ = [n]
          rw [List.filter_cons]
          simp [hn, filter_pos_replicate_zero]
      | succ j =>
          rw [List.replicate_succ]
          show ((0 :: (List.replicate k 0).set j n : List Nat)).filter _ = [n]
          rw [List.filter_cons]
          simpa using ih j (by omega)

/-- The entropy of a constant byte buffer is zero. -/
lemma entropyOf_replicate (b n : Nat) (hb : b < 256) (hn : 0 < n) :
    entropyOf (List.replicate n b) = 0 := by
  unfold entropyOf
  rw [freq_replicate b hb n, filter_pos_set n hn 256 b hb]
  have hne : ((n : ℝ)) ≠ 0 := Nat.cast_ne_zero.mpr (by omega)
  simp [div_self hne, Real.logb_one]

/-- Zero entropy lands in the below-4.0 branch. -/
lemma classify_zero :
    classify 0 = "Low entropy - likely plain text or repetitive data" := by
  unfold classify
  rw [if_neg (by norm_num), if_pos (by norm_num)]

/-- C6: for every non-empty sampled buffer consisting of a single
repeated byte value, the Shannon entropy over the 256-bucket histogram
is 0 and the classification is the below-4.0 "low" branch. -/
theorem entropy_constant_buffer_low (b n : Nat) (hb : b < 256) (hn : 0 < n) :
    analyze_file_entropy (Except.ok (List.replicate n b)) =
      EntropyOutcome.result 0
        "Low entropy - likely plain text or repetitive data" := by
  have hlen : ¬ (List.replicate n b).length = 0 := by
    rw [List.length_replicate]; omega
  simp only [analyze_file_entropy, if_neg hlen]
  rw [entropyOf_replicate b n hb hn, classify_zero]

/-- C6 witness: the theorem applied to three copies of byte 65. -/
theorem entropy_constant_buffer_low_witness :
    65 < 256 ∧ 0 < 3 ∧
      analyze_file_entropy (Except.ok (List.replicate 3 65)) =
        EntropyOutcome.result 0
          "Low entropy - likely plain text or repetitive data" :=
  ⟨by decide, by decide, entropy_constant_buffer_low 65 3 (by decide) (by decide)⟩

/-- C7: a zero-byte sample yields the empty-file sentinel and never
the numeric result shape, while every non-empty sample yields the
numeric result shape, so empty input is distinguishable from a
non-empty file of entropy 0. -/
theorem entropy_empty_sentinel :
    analyze_file_entropy (Except.ok []) = EntropyOutcome.empty ∧
    (∀ e a, analyze_file_entropy (Except.ok []) ≠ EntropyOutcome.result e a) ∧
    ∀ data : List Nat, data ≠ [] →
      ∃ e a, analyze_file_entropy (Except.ok data) = EntropyOutcome.result e a := by
  refine ⟨rfl, by intro e a h; exact EntropyOutcome.noConfusion h, ?_⟩
  intro data hd
  have hlen : ¬ data.length = 0 := by
    intro h; exact hd (List.length_eq_zero.mp h)
  exact ⟨entropyOf data, classify (entropyOf data), by
    simp only [analyze_file_entropy, if_neg hlen]⟩

/-- C7 witness: the theorem applied to the one-byte buffer `[0]`. -/
theorem entropy_empty_sentinel_witness :
    ([0] : List Nat) ≠ [] ∧
      ∃ e a, analyze_file_entropy (Except.ok [0]) = EntropyOutcome.result e a :=
  ⟨by decide, entropy_empty_sentinel.2.2 [0] (by decide)⟩

/-- C5 counterexample: when the PDF opens and its page count is read
but accessing the document info raises, the error entry is appended to
the fields already collected, so the extractor report mixes successful
fields with the error entry instead of being a single error entry. -/
theorem pdf_error_not_single_entry :
    get_pdf_metadata true (.parsed 2 false (.error "bad info dictionary")) =
      [("Number of Pages", "2"), ("Encrypted", "false"),
       ("Error", "PDF extraction error: bad info dictionary")] ∧
    (get_pdf_metadata true (.parsed 2 false (.error "bad info dictionary"))).length
      = 3 ∧
    (get_pdf_metadata true
      (.parsed 2 false (.error "bad info dictionary"))).map Prod.fst =
      ["Number of Pages", "Encrypted", "Error"] := by
  refine ⟨rfl, rfl, rfl⟩

/-- C5 amended: every extractor returns a plain report value (never
raises); a missing capability yields the single informational note; a
failure before any field was extracted yields a single error entry;
but a PDF or audio/video failure occurring after fields were already
collected appends the error entry to those fields within the same
report, and an image that cannot be opened at all yields no report
rather than an error entry.  Failures stay confined to the failing
own return value of the failing extractor. -/
theorem extractor_failure_containment :
    (∀ input, get_image_exif_metadata false input =
      some [("Note", "Pillow library not installed. Cannot extract EXIF metadata.")]) ∧
    (∀ e, get_image_exif_metadata true (.failure e) =
      some [("Error", "EXIF extraction error: " ++ e)]) ∧
    get_image_exif_metadata true .ioError = none ∧
    (∀ input, get_pdf_metadata false input =
      [("Note", "PyPDF2 not installed. Install with: pip install PyPDF2")]) ∧
    (∀ e, get_pdf_metadata true (.failure e) =
      [("Error", "PDF extraction error: " ++ e)]) ∧
    (∀ pages enc e, get_pdf_metadata true (.parsed pages enc (.error e)) =
      [("Number of Pages", toString pages), ("Encrypted", toString enc),
       ("Error", "PDF extraction error: " ++ e)]) ∧
    (∀ input, get_audio_video_metadata false input =
      [("Note", "mutagen not installed. Install with: pip install mutagen")]) ∧
    (∀ e, get_audio_video_metadata true (.failure e) =
      [("Error", "Audio/video extraction error: " ++ e)]) ∧
    get_audio_video_metadata true .unrecognized =
      [("Note", "Not a recognized audio/video file")] ∧
    (∀ info e, get_audio_video_metadata true (.opened info (.error e)) =
      info ++ [("Error", "Audio/video extraction error: " ++ e)]) :=
  ⟨fun _ => rfl, fun _ => rfl, rfl, fun _ => rfl, fun _ => rfl,
   fun _ _ _ => rfl, fun _ => rfl, fun _ => rfl, rfl, fun _ _ => rfl⟩

/-- C8: when the sniffed MIME type is in the expectation table, the
classifier emits an anomaly field exactly when the lowercased
extension is absent or not in the expected set of that MIME type, with the
key distinguishing the no-extension case from the mismatched-extension
case; an expected extension yields no anomaly field. -/
theorem type_info_extension_anomaly (mime desc fp : String)
    (exts : List String) (h : mimeExpected.lookup mime = some exts) :
    (strLower (pathSuffix fp) ∈ exts →
      get_file_type_info (.ok mime desc) fp =
        [("MIME Type", mime), ("File Type Description", desc)]) ∧
    (strLower (pathSuffix fp) ∉ exts → strLower (pathSuffix fp) ≠ "" →
      get_file_type_info (.ok mime desc) fp =
        [("MIME Type", mime), ("File Type Description", desc),
         ("⚠ Extension Mismatch",
          "File is " ++ mime ++ " but has " ++ strLower (pathSuffix fp) ++
            " extension")]) ∧
    (strLower (pathSuffix fp) ∉ exts → strLower (pathSuffix fp) = "" →
      get_file_type_info (.ok mime desc) fp =
        [("MIME Type", mime), ("File Type Description", desc),
         ("⚠ No Extension",
          "File is " ++ mime ++ " but has " ++ "no" ++ " extension")]) := by
  refine ⟨fun hm => ?_, fun hm hne => ?_, fun hm he => ?_⟩ <;>
    simp only [get_file_type_info, h] <;>
    first
    | rw [if_pos hm]
    | (rw [if_neg hm]
       first
       | rw [if_neg hne, if_neg hne]; rfl
       | rw [if_pos he, if_pos he]; rfl)

/-- C8 witness: a PNG-typed file named `shot.txt` yields the mismatch
anomaly, applied through the theorem with every hypothesis discharged
at a concrete input. -/
theorem type_info_extension_anomaly_witness :
    mimeExpected.lookup "image/png" = some [".png"] ∧
    strLower (pathSuffix "shot.txt") ∉ ([".png"] : List String) ∧
    strLower (pathSuffix "shot.txt") ≠ "" ∧
    get_file_type_info (.ok "image/png" "PNG image data") "shot.txt" =
      [("MIME Type", "image/png"), ("File Type Description", "PNG image data"),
       ("⚠ Extension Mismatch",
        "File is " ++ "image/png" ++ " but has " ++
          strLower (pathSuffix "shot.txt") ++ " extension")] :=
  ⟨by decide, by decide, by decide,
   (type_info_extension_anomaly "image/png" "PNG image data" "shot.txt"
      [".png"] (by decide)).2.1 (by decide) (by decide)⟩

/-- Appending a non-empty string changes the path. -/
lemma append1_ne (fp a : String) (ha : 0 < a.length) : fp ++ a ≠ fp := by
  intro h
  have hl := congrArg String.length h
  rw [String.length_append] at hl
  omega

/-- Appending a non-empty string and anything further changes the
path. -/
lemma append2_ne (fp a b : String) (ha : 0 < a.length) : fp ++ a ++ b ≠ fp := by
  intro h
  have hl := congrArg String.length h
  rw [String.length_append, String.length_append] at hl
  omega

/-- The derived clean-copy output path is never the original path:
it is always eight characters longer. -/
lemma cleanedCopyPath_ne (fp : String) : cleanedCopyPath fp ≠ fp := by
  intro h
  have hl := congrArg String.length h
  unfold cleanedCopyPath at hl
  rw [String.length_append, String.length_append] at hl
  have hw : (withSuffixEmpty fp).length =
      fp.data.length - (pathSuffix fp).length := by
    show (fp.data.take (fp.data.length - (pathSuffix fp).length)).length = _
    rw [List.length_take]
    omega
  have hs : (strLower (pathSuffix fp)).length = (pathSuffix fp).length := by
    show ((pathSuffix fp).data.map Char.toLower).length = (pathSuffix fp).data.length
    exact List.length_map _ _
  have hc : (".cleaned" : String).length = 8 := rfl
  have hfp : fp.length = fp.data.length := rfl
  omega

/-- The image cleaner only writes to its resolved target. -/
lemma clean_image_untouched (env : CleanEnv) (fp : String) (op : Option String)
    (h : op.getD fp ≠ fp) :
    ∀ e ∈ (clean_image_metadata env fp op).1, touches e fp = false := by
  cases hp : env.pil <;> cases ho : env.imageOk <;>
    simp [clean_image_metadata, hp, ho, touches, beq_eq_false_iff_ne, h]

/-- The PDF cleaner only writes to its resolved target. -/
lemma clean_pdf_untouched (env : CleanEnv) (fp : String) (op : Option String)
    (h : op.getD (fp ++ ".cleaned.pdf") ≠ fp) :
    ∀ e ∈ (clean_pdf_metadata env fp op).1, touches e fp = false := by
  cases hp : env.pypdf2 <;> cases ho : env.pdfOk <;>
    simp [clean_pdf_metadata, hp, ho, touches, beq_eq_false_iff_ne, h]

/-- The audio cleaner only copies to and mutates its resolved
target. -/
lemma clean_audio_untouched (env : CleanEnv) (fp : String) (op : Option String)
    (h : op.getD (fp ++ ".cleaned" ++ pathSuffix fp) ≠ fp) :
    ∀ e ∈ (clean_audio_metadata env fp op).1, touches e fp = false := by
  cases hm : env.mutagen <;> cases ho : env.audioOk <;>
    cases ht : env.audioHasTags <;>
    simp [clean_audio_metadata, hm, ho, ht, touches, beq_eq_false_iff_ne, h]

/-- C1 counterexample: clean-overwrite on a JPEG with every library
available and succeeding produces exactly one effect — a direct
library write to the original path — and no rename effect at all, so
the cleaned result is not first written to a temporary path and
renamed over the original. -/
theorem clean_overwrite_not_atomic_for_images :
    (perform_cleaning envAll "photo.jpg" .clean_overwrite).1 =
      [FsEffect.write "photo.jpg"] ∧
    touches (FsEffect.write "photo.jpg") "photo.jpg" = true ∧
    (perform_cleaning envAll "photo.jpg" .clean_overwrite).1.all
      (fun e => match e with | .replace _ _ => false | _ => true) = true := by
  refine ⟨by decide, by decide, by decide⟩

/-- C1 amended: only the PDF branch of clean-overwrite is atomic —
on success the cleaned content is fully written to the temporary path
`fp + ".temp.pdf"` and then renamed over the original, and on a
cleaning failure the original path is never touched.  The image
branch instead saves the re-encoded image directly to the original
path (an interrupted save can leave it partial), and the audio branch
never replaces the original at all: it writes a cleaned duplicate at
a derived path. -/
theorem clean_overwrite_atomic_only_for_pdf (env : CleanEnv) (fp : String) :
    (strLower (pathSuffix fp) = ".pdf" → env.pypdf2 = true → env.pdfOk = true →
      (perform_cleaning env fp .clean_overwrite).1 =
        [FsEffect.write (fp ++ ".temp.pdf"),
         FsEffect.replace (fp ++ ".temp.pdf") fp]) ∧
    (strLower (pathSuffix fp) = ".pdf" → env.pdfOk = false →
      ∀ e ∈ (perform_cleaning env fp .clean_overwrite).1, touches e fp = false) ∧
    (strLower (pathSuffix fp) ∈ imageCleanExts → env.pil = true →
      (perform_cleaning env fp .clean_overwrite).1 =
        (if env.imageOk then [FsEffect.write fp]
         else [FsEffect.incompleteWrite fp])) ∧
    (strLower (pathSuffix fp) ∈ audioCleanExts →
      ∀ e ∈ (perform_cleaning env fp .clean_overwrite).1, touches e fp = false) := by
  refine ⟨fun hext hpy hok => ?_, fun hext hok e he => ?_,
    fun hext hpil => ?_, fun hext e he => ?_⟩
  · have h1 : strLower (pathSuffix fp) ∉ imageCleanExts := by rw [hext]; decide
    simp only [perform_cleaning]
    rw [if_neg h1, hext]
    simp [clean_pdf_metadata, hpy, hok]
  · have h1 : strLower (pathSuffix fp) ∉ imageCleanExts := by rw [hext]; decide
    simp only [perform_cleaning] at he
    rw [if_neg h1, hext] at he
    cases hpy : env.pypdf2 <;>
      simp [clean_pdf_metadata, hpy, hok] at he
    subst he
    simp [touches, beq_eq_false_iff_ne, append1_ne fp ".temp.pdf" (by decide)]
  · simp only [perform_cleaning]
    rw [if_pos hext]
    cases him : env.imageOk <;> simp [clean_image_metadata, hpil, him]
  · simp only [audioCleanExts, List.mem_cons, List.mem_singleton,
      List.not_mem_nil, or_false] at hext
    have hne : Option.getD none (fp ++ ".cleaned" ++ pathSuffix fp) ≠ fp := by
      exact append2_ne fp ".cleaned" (pathSuffix fp) (by decide)
    rcases hext with hv | hv | hv | hv | hv <;>
      (simp only [perform_cleaning] at he
       rw [hv] at he
       rw [if_neg (by decide), if_neg (by decide), if_pos (by decide)] at he
       exact clean_audio_untouched env fp none hne e he)

/-- C1 amended witness: the theorem applied at a PDF path, an image
path and an audio path, with each hypothesis discharged concretely. -/
theorem clean_overwrite_atomic_only_for_pdf_witness :
    (strLower (pathSuffix "doc.pdf") = ".pdf" ∧ envAll.pypdf2 = true ∧
      envAll.pdfOk = true ∧
      (perform_cleaning envAll "doc.pdf" .clean_overwrite).1 =
        [FsEffect.write ("doc.pdf" ++ ".temp.pdf"),
         FsEffect.replace ("doc.pdf" ++ ".temp.pdf") "doc.pdf"]) ∧
    (strLower (pathSuffix "photo.jpg") ∈ imageCleanExts ∧ envAll.pil = true ∧
      (perform_cleaning envAll "photo.jpg" .clean_overwrite).1 =
        (if envAll.imageOk then [FsEffect.write "photo.jpg"]
         else [FsEffect.incompleteWrite "photo.jpg"])) ∧
    (strLower (pathSuffix "song.mp3") ∈ audioCleanExts ∧
      ∀ e ∈ (perform_cleaning envAll "song.mp3" .clean_overwrite).1,
        touches e "song.mp3" = false) :=
  ⟨⟨by decide, rfl, rfl,
    (clean_overwrite_atomic_only_for_pdf envAll "doc.pdf").1 (by decide) rfl rfl⟩,
   ⟨by decide, rfl,
    (clean_overwrite_atomic_only_for_pdf envAll "photo.jpg").2.2.1 (by decide) rfl⟩,
   ⟨by decide,
    (clean_overwrite_atomic_only_for_pdf envAll "song.mp3").2.2.2 (by decide)⟩⟩

/-- C4 counterexample: clean-copy on `doc.pdf` writes its duplicate
to `doc.pdf.cleaned.pdf` — the full original path with `.cleaned.pdf`
appended — which is not the claimed derived path
stem + ".cleaned" + ext (`doc.cleaned.pdf`), and no effect touches
that claimed path. -/
theorem clean_copy_pdf_path_not_stem_based :
    (perform_cleaning envAll "doc.pdf" .clean_copy).1 =
      [FsEffect.write ("doc.pdf" ++ ".cleaned.pdf")] ∧
    ("doc.pdf" ++ ".cleaned.pdf") ≠ cleanedCopyPath "doc.pdf" ∧
    cleanedCopyPath "doc.pdf" = "doc.cleaned.pdf" ∧
    (perform_cleaning envAll "doc.pdf" .clean_copy).1.all
      (fun e => !touches e (cleanedCopyPath "doc.pdf")) = true := by
  refine ⟨by decide, by decide, by decide, by decide⟩

/-- C4 amended: clean-copy never mutates the original path in any
branch; for image and audio files the duplicate goes to the derived
path stem + ".cleaned" + lowercased extension, but for PDFs it goes
to the full original path with ".cleaned.pdf" appended instead of the
stem-based path. -/
theorem clean_copy_paths_and_frame (env : CleanEnv) (fp : String) :
    (∀ e ∈ (perform_cleaning env fp .clean_copy).1, touches e fp = false) ∧
    (strLower (pathSuffix fp) ∈ imageCleanExts → env.pil = true →
      env.imageOk = true →
      (perform_cleaning env fp .clean_copy).1 =
        [FsEffect.write (cleanedCopyPath fp)]) ∧
    (strLower (pathSuffix fp) = ".pdf" → env.pypdf2 = true → env.pdfOk = true →
      (perform_cleaning env fp .clean_copy).1 =
        [FsEffect.write (fp ++ ".cleaned.pdf")]) ∧
    (strLower (pathSuffix fp) ∈ audioCleanExts → env.mutagen = true →
      env.audioOk = true →
      (perform_cleaning env fp .clean_copy).1 =
        FsEffect.copy fp (cleanedCopyPath fp) ::
          (if env.audioHasTags then
            [FsEffect.stripTagsInPlace (cleanedCopyPath fp)] else [])) := by
  refine ⟨fun e he => ?_, fun hext hpil hok => ?_,
    fun hext hpy hok => ?_, fun hext hmut hok => ?_⟩
  · simp only [perform_cleaning] at he
    by_cases h1 : strLower (pathSuffix fp) ∈ imageCleanExts
    · rw [if_pos h1, if_pos trivial] at he
      exact clean_image_untouched env fp (some (cleanedCopyPath fp))
        (cleanedCopyPath_ne fp) e he
    · rw [if_neg h1] at he
      by_cases h2 : strLower (pathSuffix fp) = ".pdf"
      · rw [if_pos h2, if_neg (by decide)] at he
        exact clean_pdf_untouched env fp none
          (append1_ne fp ".cleaned.pdf" (by decide)) e he
      · rw [if_neg h2] at he
        by_cases h3 : strLower (pathSuffix fp) ∈ audioCleanExts
        · rw [if_pos h3, if_pos trivial] at he
          exact clean_audio_untouched env fp (some (cleanedCopyPath fp))
            (cleanedCopyPath_ne fp) e he
        · rw [if_neg h3] at he
          simp at he
  · simp only [perform_cleaning]
    rw [if_pos hext, if_pos trivial]
    simp [clean_image_metadata, hpil, hok]
  · have h1 : strLower (pathSuffix fp) ∉ imageCleanExts := by rw [hext]; decide
    simp only [perform_cleaning]
    rw [if_neg h1, hext, if_pos rfl, if_neg (by decide)]
    simp [clean_pdf_metadata, hpy, hok]
  · have h1 : strLower (pathSuffix fp) ∉ imageCleanExts := by
      intro hc
      rcases (by simpa [audioCleanExts] using hext : _) with hv | hv | hv | hv | hv <;>
        rw [hv] at hc <;> exact absurd hc (by decide)
    have h2 : strLower (pathSuffix fp) ≠ ".pdf" := by
      rcases (by simpa [audioCleanExts] using hext : _) with hv | hv | hv | hv | hv <;>
        rw [hv] <;> decide
    simp only [perform_cleaning]
    rw [if_neg h1, if_neg h2, if_pos hext, if_pos trivial]
    cases ht : env.audioHasTags <;>
      simp [clean_audio_metadata, hmut, hok, ht]

/-- C4 amended witness: the theorem applied at an image path, a PDF
path and an audio path, with each hypothesis discharged concretely. -/
theorem clean_copy_paths_and_frame_witness :
    (strLower (pathSuffix "photo.jpg") ∈ imageCleanExts ∧ envAll.pil = true ∧
      envAll.imageOk = true ∧
      (perform_cleaning envAll "photo.jpg" .clean_copy).1 =
        [FsEffect.write (cleanedCopyPath "photo.jpg")]) ∧
    (strLower (pathSuffix "doc.pdf") = ".pdf" ∧ envAll.pypdf2 = true ∧
      envAll.pdfOk = true ∧
      (perform_cleaning envAll "doc.pdf" .clean_copy).1 =
        [FsEffect.write ("doc.pdf" ++ ".cleaned.pdf")]) ∧
    (strLower (pathSuffix "song.mp3") ∈ audioCleanExts ∧ envAll.mutagen = true ∧
      envAll.audioOk = true ∧
      (perform_cleaning envAll "song.mp3" .clean_copy).1 =
        FsEffect.copy "song.mp3" (cleanedCopyPath "song.mp3") ::
          (if envAll.audioHasTags then
            [FsEffect.stripTagsInPlace (cleanedCopyPath "song.mp3")] else [])) :=
  ⟨⟨by decide, rfl, rfl,
    (clean_copy_paths_and_frame envAll "photo.jpg").2.1 (by decide) rfl rfl⟩,
   ⟨by decide, rfl, rfl,
    (clean_copy_paths_and_frame envAll "doc.pdf").2.2.1 (by decide) rfl rfl⟩,
   ⟨by decide, rfl, rfl,
    (clean_copy_paths_and_frame envAll "song.mp3").2.2.2 (by decide) rfl rfl⟩⟩

/-- A cleaning request for an extension outside every supported set
falls through to the not-supported branch with no effects. -/
lemma perform_cleaning_unsupported (env : CleanEnv) (fp : String)
    (action : CleaningAction)
    (ha : action = .clean_copy ∨ action = .clean_overwrite)
    (h1 : strLower (pathSuffix fp) ∉ imageCleanExts)
    (h2 : strLower (pathSuffix fp) ≠ ".pdf")
    (h3 : strLower (pathSuffix fp) ∉ audioCleanExts) :
    perform_cleaning env fp action =
      ([], .notSupported (strLower (pathSuffix fp))) := by
  rcases ha with rfl | rfl <;>
    (simp only [perform_cleaning]
     rw [if_neg h1, if_neg h2, if_neg h3])

/-- C9: a clean-copy or clean-overwrite request on a file whose
lowercased extension is in no cleaning-supported set reports the
not-supported outcome and emits no filesystem effect, so the bytes
and modification time of the file are unchanged and no new file is
created. -/
theorem unsupported_extension_no_mutation (env : CleanEnv) (fp : String)
    (action : CleaningAction)
    (ha : action = .clean_copy ∨ action = .clean_overwrite)
    (h1 : strLower (pathSuffix fp) ∉ imageCleanExts)
    (h2 : strLower (pathSuffix fp) ≠ ".pdf")
    (h3 : strLower (pathSuffix fp) ∉ audioCleanExts) :
    perform_cleaning env fp action =
      ([], .notSupported (strLower (pathSuffix fp))) :=
  perform_cleaning_unsupported env fp action ha h1 h2 h3

/-- C9 witness: the theorem applied to a `.exe` file with a clean-copy
request. -/
theorem unsupported_extension_no_mutation_witness :
    (CleaningAction.clean_copy = CleaningAction.clean_copy ∨
      CleaningAction.clean_copy = CleaningAction.clean_overwrite) ∧
    strLower (pathSuffix "tool.exe") ∉ imageCleanExts ∧
    strLower (pathSuffix "tool.exe") ≠ ".pdf" ∧
    strLower (pathSuffix "tool.exe") ∉ audioCleanExts ∧
    perform_cleaning envAll "tool.exe" .clean_copy =
      ([], .notSupported (strLower (pathSuffix "tool.exe"))) :=
  ⟨Or.inl rfl, by decide, by decide, by decide,
   unsupported_extension_no_mutation envAll "tool.exe" .clean_copy
     (Or.inl rfl) (by decide) (by decide) (by decide)⟩

/-- C10: files with the `.mp4`, `.avi` or `.mkv` extension are routed
to the audio/video metadata extractor by `main`, yet the cleaning
dispatch treats them as unsupported — not-supported outcome and no
effects — because the cleanable audio set is a strict subset of the
extractable audio/video set. -/
theorem video_extensions_extractable_not_cleanable (env : CleanEnv)
    (fp : String) (action : CleaningAction)
    (ha : action = .clean_copy ∨ action = .clean_overwrite)
    (hext : strLower (pathSuffix fp) ∈ ([".mp4", ".avi", ".mkv"] : List String)) :
    perform_cleaning env fp action =
      ([], .notSupported (strLower (pathSuffix fp))) ∧
    strLower (pathSuffix fp) ∈ extractAudioVideoExts ∧
    strLower (pathSuffix fp) ∉ audioCleanExts ∧
    (∀ x ∈ audioCleanExts, x ∈ extractAudioVideoExts) ∧
    ¬ ∀ x ∈ extractAudioVideoExts, x ∈ audioCleanExts := by
  simp only [List.mem_cons, List.mem_singleton, List.not_mem_nil,
    or_false] at hext
  have hsub : ∀ x ∈ audioCleanExts, x ∈ extractAudioVideoExts := by
    intro x hx
    simp only [audioCleanExts, List.mem_cons, List.mem_singleton,
      List.not_mem_nil, or_false] at hx
    rcases hx with hv | hv | hv | hv | hv <;> rw [hv] <;> decide
  have hnsub : ¬ ∀ x ∈ extractAudioVideoExts, x ∈ audioCleanExts := by
    intro hall
    exact absurd (hall ".mp4" (by decide)) (by decide)
  rcases hext with h | h | h <;>
    exact ⟨perform_cleaning_unsupported env fp action ha
        (by rw [h]; decide) (by rw [h]; decide) (by rw [h]; decide),
      by rw [h]; decide, by rw [h]; decide, hsub, hnsub⟩

/-- C10 witness: the theorem applied to `movie.mp4` with a
clean-overwrite request. -/
theorem video_extensions_extractable_not_cleanable_witness :
    (CleaningAction.clean_overwrite = CleaningAction.clean_copy ∨
      CleaningAction.clean_overwrite = CleaningAction.clean_overwrite) ∧
    strLower (pathSuffix "movie.mp4") ∈ ([".mp4", ".avi", ".mkv"] : List String) ∧
    (perform_cleaning envAll "movie.mp4" .clean_overwrite =
      ([], .notSupported (strLower (pathSuffix "movie.mp4"))) ∧
    strLower (pathSuffix "movie.mp4") ∈ extractAudioVideoExts ∧
    strLower (pathSuffix "movie.mp4") ∉ audioCleanExts ∧
    (∀ x ∈ audioCleanExts, x ∈ extractAudioVideoExts) ∧
    ¬ ∀ x ∈ extractAudioVideoExts, x ∈ audioCleanExts) :=
  ⟨Or.inr rfl, by decide,
   video_extensions_extractable_not_cleanable envAll "movie.mp4"
     .clean_overwrite (Or.inr rfl) (by decide)⟩

end Rattlescan
